import Mathlib

/-!
Shallow embedding of the workflow engine of this repository
(src/engine.py and src/models.py): the data model, the invocation adapter
(`_call_node`), the branch resolver (the branching block of `_execute`),
the execution loop (`_execute` together with the exception handler of
`_runner` in `run_graph`), and the engine-level run lifecycle
(`run_graph`, `create_graph`).

Modelling conventions:
- Python dicts are association lists over string keys (`StateMap`), with
  `dict.get`, single-key assignment and `dict.update` translated to
  `dictGet`, `dictInsert` and `dictUpdate`.
- Python runtime values stored in the run state and in branching
  descriptors are the inductive `Val` (None, int, bool, str; bool is
  numeric for comparison and equality, as in Python).
- Python exceptions are `Except String`; a raised exception that escapes
  `_execute` is caught by `_runner`, which writes `error` and `finished`
  into the run record and clears nothing else.
- async/await is collapsed: an awaited call is an ordinary application; a
  predicate that raises (before or after suspension) is a `.error` result.
- The loop counter `visited` of `_execute` and the bound `max_steps`
  satisfy `visited >= max_steps` exactly when the fuel
  `(max_steps - visited).toNat` is zero, so the loop is modelled by
  structural recursion on that fuel, with the running value of `visited`
  threaded through and returned so that the number of node steps taken is
  observable.
-/

namespace Engine

/-- Python runtime values that occur in run state and edge descriptors:
None, int, bool, str. -/
inductive Val where
  | vnone
  | int (n : Int)
  | bool (b : Bool)
  | str (s : String)
deriving DecidableEq

/-- A Python dict with string keys, as an association list. -/
abbrev StateMap := List (String × Val)

/-- `d.get(k)`: the value at `k`, or None when the key is absent. -/
def dictGet (st : StateMap) (k : String) : Val :=
  (st.lookup k).getD Val.vnone

/-- Single-key dict write: replace in place when the key exists (dicts keep
insertion order), append otherwise. -/
def dictInsert (st : StateMap) (k : String) (v : Val) : StateMap :=
  if (st.lookup k).isSome then
    st.map (fun p => if p.1 = k then (k, v) else p)
  else
    st ++ [(k, v)]

/-- `d.update(u)`: key-wise overwrite of `d` by every entry of `u`. -/
def dictUpdate (st upd : StateMap) : StateMap :=
  upd.foldl (fun acc p => dictInsert acc p.1 p.2) st

/-- Python truthiness of a `Val` (used for `if node_res.next_node:` and for
the result of a conditional-edge callable). -/
def truthy : Val → Bool
  | .vnone => false
  | .int n => n != 0
  | .bool b => b
  | .str s => s != ""

/-- Numeric view of a `Val`: Python treats bool as int for comparison and
equality. -/
def toNum : Val → Option Int
  | .int n => some n
  | .bool b => some (if b then 1 else 0)
  | _ => none

/-- Python rich comparison of two values: numbers compare numerically,
strings lexicographically, any other pair raises TypeError (`none`). -/
def pyCompare (a b : Val) : Option Ordering :=
  match toNum a, toNum b with
  | some x, some y => some (compare x y)
  | _, _ =>
    match a, b with
    | .str s, .str t => some (compare s t)
    | _, _ => none

/-- Python `a >= b` (TypeError is `none`). -/
def pyGE (a b : Val) : Option Bool :=
  (pyCompare a b).map (fun o => o != Ordering.lt)

/-- Python `a <= b` (TypeError is `none`). -/
def pyLE (a b : Val) : Option Bool :=
  (pyCompare a b).map (fun o => o != Ordering.gt)

/-- Python `a > b` (TypeError is `none`). -/
def pyGT (a b : Val) : Option Bool :=
  (pyCompare a b).map (fun o => o == Ordering.gt)

/-- Python `a < b` (TypeError is `none`). -/
def pyLT (a b : Val) : Option Bool :=
  (pyCompare a b).map (fun o => o == Ordering.lt)

/-- Python `a == b`: numeric cross-type equality for int/bool, string
equality, `None == None`, and `False` on any other mixed pair. Total. -/
def pyEq (a b : Val) : Bool :=
  match toNum a, toNum b with
  | some x, some y => x == y
  | _, _ =>
    match a, b with
    | .str s, .str t => s == t
    | .vnone, .vnone => true
    | _, _ => false

/-- models.NodeResult: full state proposed by the node, optional log line,
optional next-node override. -/
structure NodeResult where
  state : StateMap
  log : Option String
  next_node : Option String
deriving DecidableEq

/-- The possible runtime shapes of a node function's return value, as
discriminated by `_call_node`: a NodeResult, a bare dict, or anything
else (including None). -/
inductive NodeReturn where
  | result (r : NodeResult)
  | dict (d : StateMap)
  | other

/-- A node callable: shared state in, some runtime value out (async is
collapsed to a plain application). -/
abbrev NodeFn := StateMap → NodeReturn

/-- The runtime shapes of an entry of the edge table, as discriminated by
the branching block of `_execute`:
- `literal s`  : a plain string;
- `pred`       : a dict whose `cond` entry is callable; the callable may
                 raise (`.error`); the `true`/`false` entries are the
                 targets (absent entries are `none`, i.e. terminal);
- `comp`       : a dict with a `field` entry and no callable `cond`; `op`
                 is `edge.get("op", "==")` and `value` is
                 `edge.get("value")` (absent value is None);
- `fallbackNext` : any other dict; the target is `edge.get("next")`;
- `other`      : an entry that is neither a string, None, nor a dict. -/
inductive Edge where
  | literal (s : String)
  | pred (cond : StateMap → Except Unit Val) (tt ff : Option String)
  | comp (field : String) (op : String) (value : Val) (tt ff : Option String)
  | fallbackNext (next : Option String)
  | other

/-- models.GraphSpec: node table, edge table, start node, optional step
budget (pydantic default 1000; `_execute` additionally maps falsy values
to 1000). The tables are modelled by their `.get` functions. -/
structure GraphSpec where
  nodes : String → Option NodeFn
  edges : String → Option Edge
  start_node : String
  max_steps : Option Int

/-- models.RunState: the mutable run record. -/
structure RunState where
  run_id : String
  graph_id : String
  state : StateMap
  logs : List String
  current_node : Option String
  finished : Bool
  error : Option String
deriving DecidableEq

/-- engine._call_node: normalize a node's return value into
`(mergeable_state, NodeResult)`. A NodeResult passes through; a bare dict
is wrapped with the fixed log `"node returned dict"`; anything else keeps
the current state with the fixed no-change log. -/
def call_node (node_fn : NodeFn) (state : StateMap) : StateMap × NodeResult :=
  match node_fn state with
  | .result r => (r.state, r)
  | .dict d => (d, ⟨d, some "node returned dict", none⟩)
  | .other => (state, ⟨state, some "node returned unexpected type; no change", none⟩)

/-- The edge-table part of the branch resolver (lines 109-146 of
engine.py): consulted only when the node result carries no truthy
override. A raised TypeError from a field comparison propagates
(`.error`); a raised exception from a predicate is caught and treated as
a false condition. -/
def resolveEdge (edges : String → Option Edge) (current : String) (st : StateMap) :
    Except String (Option String) :=
  match edges current with
  | none => .ok none
  | some (.literal s) => .ok (some s)
  | some (.pred cond tt ff) =>
    let condRes : Bool :=
      match cond st with
      | .ok v => truthy v
      | .error _ => false
    .ok (if condRes then tt else ff)
  | some (.comp field op value tt ff) =>
    let val := dictGet st field
    let takeTrue : Except String Bool :=
      if op = ">=" then
        if val = Val.vnone then .ok false
        else match pyGE val value with
          | some b => .ok b
          | none => .error "TypeError: comparison not supported"
      else if op = "<=" then
        if val = Val.vnone then .ok false
        else match pyLE val value with
          | some b => .ok b
          | none => .error "TypeError: comparison not supported"
      else if op = ">" then
        if val = Val.vnone then .ok false
        else match pyGT val value with
          | some b => .ok b
          | none => .error "TypeError: comparison not supported"
      else if op = "<" then
        if val = Val.vnone then .ok false
        else match pyLT val value with
          | some b => .ok b
          | none => .error "TypeError: comparison not supported"
      else
        .ok (pyEq val value)
    match takeTrue with
    | .error e => .error e
    | .ok b => .ok (if b then tt else ff)
  | some (.fallbackNext nxt) => .ok nxt
  | some .other => .ok none

/-- The full branch resolver (lines 104-146 of engine.py): a truthy
(non-empty) `next_node` on the node result wins unconditionally;
otherwise the edge table is consulted. -/
def resolveNext (edges : String → Option Edge) (current : String)
    (nr : NodeResult) (st : StateMap) : Except String (Option String) :=
  match nr.next_node with
  | some s => if s = "" then resolveEdge edges current st else .ok (some s)
  | none => resolveEdge edges current st

/-- The f-string rendering of an optional next node: Python formats None
as `"None"` and a string as itself. -/
def optRepr : Option String → String
  | none => "None"
  | some s => s

/-- The log entry appended for a node's own log line: only a truthy
(non-empty) log is appended, prefixed by the node name. -/
def nodeLogEntry (c : String) : Option String → List String
  | some l => if l = "" then [] else [c ++ ": " ++ l]
  | none => []

/-- The observable outcome of `_execute` run under `_runner`: the final
values of the run record fields it mutates, plus the final value of the
loop counter `visited` (the number of node steps begun). -/
structure ExecOutcome where
  state : StateMap
  logs : List String
  current_node : Option String
  finished : Bool
  error : Option String
  visited : Nat
deriving DecidableEq

/-- The while-loop of `_execute` (lines 86-152 of engine.py) composed with
the exception handler of `_runner` (lines 60-66). The source guard
`visited >= max_steps` holds exactly when the fuel
`(max_steps - visited).toNat` is zero, so the loop is structural
recursion on that fuel; `visited` is the source's loop counter. On a
normal exit or a budget abort, lines 151-152 set `finished := true` and
`current_node := none`; on a raised exception (missing node callable, or
a TypeError escaping a field comparison) `_runner` sets `error` and
`finished` and leaves `current_node` at the node that was running. -/
def execLoop (nodes : String → Option NodeFn) (edges : String → Option Edge) :
    Nat → Option String → StateMap → List String → Nat → ExecOutcome
  | _, none, st, logs, visited => ⟨st, logs, none, true, none, visited⟩
  | 0, some _, st, logs, visited =>
    ⟨st, logs ++ ["max steps reached; aborting"], none, true, none, visited⟩
  | fuel + 1, some c, st, logs, visited =>
    match nodes c with
    | none =>
      ⟨st, logs ++ ["running " ++ c], some c, true,
        some "TypeError: NoneType object is not callable", visited + 1⟩
    | some fn =>
      let pr := call_node fn st
      let logs1 := (logs ++ ["running " ++ c]) ++ nodeLogEntry c pr.2.log
      let st1 := dictUpdate st pr.1
      match resolveNext edges c pr.2 st1 with
      | .error e => ⟨st1, logs1, some c, true, some e, visited + 1⟩
      | .ok next =>
        execLoop nodes edges fuel next st1
          (logs1 ++ [c ++ " -> next: " ++ optRepr next]) (visited + 1)

/-- `spec.max_steps or 1000` (line 84 of engine.py): Python `or` replaces
a falsy value (None or 0) by 1000. -/
def effectiveMaxSteps : Option Int → Int
  | some n => if n = 0 then 1000 else n
  | none => 1000

/-- engine._execute run under `_runner`: the empty-start-node ValueError is
caught by `_runner` (the run record still has its initial
`current_node = None`); otherwise the loop starts at the start node with
fuel `max(effective budget, 0)` and `visited = 0`. -/
def execute (spec : GraphSpec) (initial : StateMap) : ExecOutcome :=
  if spec.start_node = "" then
    ⟨initial, [], none, true, some "graph has no start_node", 0⟩
  else
    execLoop spec.nodes spec.edges (effectiveMaxSteps spec.max_steps).toNat
      (some spec.start_node) initial [] 0

/-- The run record as it stands in the registry after a foreground run:
created by `run_graph`, then mutated in place by the loop. -/
def mkRunRecord (run_id graph_id : String) (out : ExecOutcome) : RunState :=
  ⟨run_id, graph_id, out.state, out.logs, out.current_node, out.finished, out.error⟩

/-- engine.create_graph: register a graph under a fresh identifier (the
identifier, a uuid in the source, is a parameter here). -/
def create_graph (graphs : List (String × GraphSpec)) (graph_id : String)
    (spec : GraphSpec) : List (String × GraphSpec) :=
  graphs ++ [(graph_id, spec)]

/-- engine.run_graph in the foreground (lines 43-72 of engine.py): an
unknown graph identifier raises KeyError before the run record is
created or registered, leaving the run registry untouched; otherwise the
record is registered and driven to completion, and the call returns the
run identifier without raising (exceptions inside the loop are absorbed
into the record by `_runner`). The result is the outcome surfaced to the
caller and the final run registry. -/
def run_graph (graphs : List (String × GraphSpec)) (runs : List (String × RunState))
    (graph_id : String) (initial_state : StateMap) (run_id : String) :
    Except String String × List (String × RunState) :=
  match graphs.lookup graph_id with
  | none => (.error "graph not found", runs)
  | some spec =>
    (.ok run_id, runs ++ [(run_id, mkRunRecord run_id graph_id (execute spec initial_state))])

/-! Concrete graphs used by witnesses and counterexamples. -/

/-- A node returning the bare dict `{"x": 1}`. -/
def n1fn : NodeFn := fun _ => NodeReturn.dict [("x", Val.int 1)]

/-- A node returning the bare dict `{"x": 2}`. -/
def n2fn : NodeFn := fun _ => NodeReturn.dict [("x", Val.int 2)]

/-- The two-node graph of the concrete scenario in the spec: nodes N1, N2,
edge `N1 -> "N2"`, start N1, default budget. -/
def specC8 : GraphSpec :=
  GraphSpec.mk
    (fun n => if n = "N1" then some n1fn else if n = "N2" then some n2fn else none)
    (fun n => if n = "N1" then some (Edge.literal "N2") else none)
    "N1" none

/-- A graph whose start node is not a key of its node table. -/
def specMissing : GraphSpec := GraphSpec.mk (fun _ => none) (fun _ => none) "A" (some 1)

/-- A node returning the empty dict. -/
def loopFn : NodeFn := fun _ => NodeReturn.dict []

/-- A one-node graph whose only edge loops back to itself, budget 2. -/
def specLoop : GraphSpec :=
  GraphSpec.mk (fun c => if c = "A" then some loopFn else none)
    (fun c => if c = "A" then some (Edge.literal "A") else none) "A" (some 2)

/-- A predicate that always raises. -/
def failPred : StateMap → Except Unit Val := fun _ => Except.error ()

/-- An edge table sending every node to a predicate branch whose predicate
always raises, true target "T", false target "F". -/
def predEdges : String → Option Edge :=
  fun _ => some (Edge.pred failPred (some "T") (some "F"))

/-- A graph with a single node and an explicit budget of 0. -/
def specZero : GraphSpec := GraphSpec.mk (fun _ => some n1fn) (fun _ => none) "A" (some 0)

/-! Helper lemmas. -/

/-- Python `None == v` is false for any non-None value `v`. -/
theorem pyEq_vnone_left (v : Val) (h : v ≠ Val.vnone) : pyEq Val.vnone v = false := by
  cases v with
  | vnone => exact absurd rfl h
  | int n => rfl
  | bool b => rfl
  | str s => rfl

/-- Replacing the entry at a key touches nothing when no entry has that key. -/
theorem map_keep_of_ne (t : StateMap) (k : String) (v : Val)
    (h : ∀ p ∈ t, p.1 ≠ k) : t.map (fun p => if p.1 = k then (k, v) else p) = t := by
  induction t with
  | nil => rfl
  | cons hd tl ih =>
    simp only [List.map_cons]
    rw [if_neg (h hd (List.mem_cons_self hd tl)),
      ih (fun p hp => h p (List.mem_cons_of_mem hd hp))]

/-- A key that appears in an association list is found by `lookup`. -/
theorem lookup_isSome_of_mem (k : String) (v : Val) :
    ∀ st : StateMap, (k, v) ∈ st → (st.lookup k).isSome := by
  intro st
  induction st with
  | nil => intro h; cases h
  | cons hd tl ih =>
    intro h
    obtain ⟨k1, v1⟩ := hd
    rcases List.mem_cons.mp h with heq | hm
    · injection heq with h1 h2
      subst h1
      simp [List.lookup]
    · by_cases hk : k == k1 <;> simp [List.lookup, hk, ih hm]

/-- Replacing the entry at key `k` by a pair already present leaves a
duplicate-free association list unchanged. -/
theorem map_replace_eq_self (k : String) (v : Val) :
    ∀ st : StateMap, (k, v) ∈ st → (st.map Prod.fst).Nodup →
      st.map (fun p => if p.1 = k then (k, v) else p) = st := by
  intro st
  induction st with
  | nil => intro h _; cases h
  | cons hd tl ih =>
    intro hmem hnd
    obtain ⟨k1, v1⟩ := hd
    simp only [List.map_cons, List.nodup_cons, List.mem_map] at hnd
    rcases List.mem_cons.mp hmem with heq | hm
    · injection heq with h1 h2
      subst h1; subst h2
      simp only [List.map_cons]
      rw [map_keep_of_ne tl k v
        (fun p hp hpk => hnd.1 ⟨p, hp, hpk⟩)]
      simp
    · have hk1 : k1 ≠ k := by
        intro hkk
        subst hkk
        exact hnd.1 ⟨(k1, v), hm, rfl⟩
      simp only [List.map_cons, if_neg hk1]
      rw [ih hm hnd.2]

/-- Inserting a pair already present leaves a duplicate-free dict unchanged. -/
theorem dictInsert_mem (k : String) (v : Val) (st : StateMap)
    (hmem : (k, v) ∈ st) (hnd : (st.map Prod.fst).Nodup) : dictInsert st k v = st := by
  rw [dictInsert, if_pos (lookup_isSome_of_mem k v st hmem)]
  exact map_replace_eq_self k v st hmem hnd

/-- Updating a duplicate-free dict with entries it already contains is the
identity. -/
theorem dictUpdate_of_subset (st : StateMap) (hnd : (st.map Prod.fst).Nodup) :
    ∀ upd : StateMap, (∀ p ∈ upd, p ∈ st) → dictUpdate st upd = st := by
  intro upd
  induction upd with
  | nil => intro _; rfl
  | cons hd tl ih =>
    intro hsub
    obtain ⟨k, v⟩ := hd
    have h1 : dictInsert st k v = st :=
      dictInsert_mem k v st (hsub (k, v) (List.mem_cons_self _ _)) hnd
    calc dictUpdate st ((k, v) :: tl)
        = dictUpdate (dictInsert st k v) tl := by simp [dictUpdate]
      _ = dictUpdate st tl := by rw [h1]
      _ = st := ih (fun p hp => hsub p (List.mem_cons_of_mem _ hp))

/-- A Python dict has no duplicate keys, so `d.update(d)` is a no-op. -/
theorem dictUpdate_self (st : StateMap) (hnd : (st.map Prod.fst).Nodup) :
    dictUpdate st st = st :=
  dictUpdate_of_subset st hnd st (fun _ hp => hp)

/-- When every node of an invariant set is defined and branch resolution
from any such node, on any state, yields another node of the set, the loop
consumes all its fuel, taking one node step per unit of fuel, and ends in
the budget abort with no error. -/
theorem execLoop_no_exit (nodes : String → Option NodeFn) (edges : String → Option Edge)
    (I : String → Prop)
    (hnodes : ∀ c, I c → ∃ fn, nodes c = some fn)
    (hstep : ∀ c st fn, I c → nodes c = some fn →
      ∃ nxt, resolveNext edges c (call_node fn st).2 (dictUpdate st (call_node fn st).1) =
          Except.ok (some nxt) ∧ I nxt) :
    ∀ fuel c st logs visited, I c →
      ∃ st2 L,
        execLoop nodes edges fuel (some c) st logs visited =
          ⟨st2, logs ++ L ++ ["max steps reached; aborting"], none, true, none,
            visited + fuel⟩ := by
  intro fuel
  induction fuel with
  | zero =>
    intro c st logs visited _
    exact ⟨st, [], by simp [execLoop]⟩
  | succ n ih =>
    intro c st logs visited hc
    obtain ⟨fn, hfn⟩ := hnodes c hc
    obtain ⟨nxt, hres, hnxt⟩ := hstep c st fn hc hfn
    obtain ⟨st2, L, hL⟩ :=
      ih nxt (dictUpdate st (call_node fn st).1)
        (((logs ++ ["running " ++ c]) ++ nodeLogEntry c (call_node fn st).2.log)
          ++ [c ++ " -> next: " ++ optRepr (some nxt)]) (visited + 1) hnxt
    refine ⟨st2, (["running " ++ c] ++ nodeLogEntry c (call_node fn st).2.log
      ++ [c ++ " -> next: " ++ optRepr (some nxt)]) ++ L, ?_⟩
    have hunfold :
        execLoop nodes edges (n + 1) (some c) st logs visited =
          execLoop nodes edges n (some nxt) (dictUpdate st (call_node fn st).1)
            (((logs ++ ["running " ++ c]) ++ nodeLogEntry c (call_node fn st).2.log)
              ++ [c ++ " -> next: " ++ optRepr (some nxt)]) (visited + 1) := by
      simp [execLoop, hfn, hres]
    rw [hunfold, hL]
    simp only [ExecOutcome.mk.injEq, and_true, true_and]
    constructor
    · simp [List.append_assoc]
    · omega

/-- Every terminal outcome of the loop has `finished = true`, and every
error-free terminal outcome has `current_node = none`. -/
theorem execLoop_finished_current (nodes : String → Option NodeFn)
    (edges : String → Option Edge) :
    ∀ fuel cur st logs visited,
      (execLoop nodes edges fuel cur st logs visited).finished = true ∧
      ((execLoop nodes edges fuel cur st logs visited).error = none →
        (execLoop nodes edges fuel cur st logs visited).current_node = none) := by
  intro fuel
  induction fuel with
  | zero =>
    intro cur st logs visited
    cases cur <;> simp [execLoop]
  | succ n ih =>
    intro cur st logs visited
    cases cur with
    | none => simp [execLoop]
    | some c =>
      cases hn : nodes c with
      | none => simp [execLoop, hn]
      | some fn =>
        cases hr : resolveNext edges c (call_node fn st).2
            (dictUpdate st (call_node fn st).1) with
        | error e => simp [execLoop, hn, hr]
        | ok next =>
          have hunfold :
              execLoop nodes edges (n + 1) (some c) st logs visited =
                execLoop nodes edges n next (dictUpdate st (call_node fn st).1)
                  ((((logs ++ ["running " ++ c]) ++ nodeLogEntry c (call_node fn st).2.log))
                    ++ [c ++ " -> next: " ++ optRepr next]) (visited + 1) := by
            simp [execLoop, hn, hr]
          rw [hunfold]
          exact ih next _ _ (visited + 1)

/-! Claim theorems. -/

/-- C1: whenever a node result carries a non-empty `next_node` override,
the branch resolver returns exactly that string as the next node, for every
edge table, current node and state — literal, branching descriptor or
absent entry for the current node makes no difference. -/
theorem override_precedence_absolute (edges : String → Option Edge) (c : String)
    (nr : NodeResult) (st : StateMap) (s : String)
    (hov : nr.next_node = some s) (hne : s ≠ "") :
    resolveNext edges c nr st = Except.ok (some s) := by
  simp [resolveNext, hov, hne]

/-- C1 witness: a result overriding to "A" wins over a literal edge to "B". -/
theorem override_precedence_absolute_witness :
    resolveNext (fun _ => some (Edge.literal "B")) "N" ⟨[], none, some "A"⟩ [] =
      Except.ok (some "A") :=
  override_precedence_absolute (fun _ => some (Edge.literal "B")) "N"
    ⟨[], none, some "A"⟩ [] "A" rfl (by decide)

/-- C2 counterexample: under the equality-default operator with comparison
value None, a state missing the key makes `state.get(key) == value` hold
(`None == None`), so resolution picks the TRUE target — not the false
target that the claim demands for every operator and comparison value
("T" and "F" are distinct targets). -/
theorem comp_absent_key_cex :
    resolveEdge (fun _ => some (Edge.comp "k" "==" Val.vnone (some "T") (some "F")))
        "c" [] = Except.ok (some "T") ∧ ("T" : String) ≠ "F" :=
  ⟨rfl, by decide⟩

/-- C2 amended: a field comparison with an absent key never throws; under
`>=`, `<=`, `>`, `<` it always selects the false target; under the
equality default it selects the false target whenever the comparison value
is not None (with value None the absent key compares equal and the true
target is selected instead); in particular, on key "score", operator
`>=`, value 80: state score=80 selects the true target, and state
score=79 or a state missing "score" selects the false target. -/
theorem comp_absent_key_amended :
    (∀ (edges : String → Option Edge) (c : String) (st : StateMap)
        (field op : String) (value : Val) (tt ff : Option String),
      (op = ">=" ∨ op = "<=" ∨ op = ">" ∨ op = "<") →
      edges c = some (Edge.comp field op value tt ff) →
      st.lookup field = none →
      resolveEdge edges c st = Except.ok ff)
    ∧ (∀ (edges : String → Option Edge) (c : String) (st : StateMap)
        (field op : String) (value : Val) (tt ff : Option String),
      op ≠ ">=" → op ≠ "<=" → op ≠ ">" → op ≠ "<" →
      edges c = some (Edge.comp field op value tt ff) →
      st.lookup field = none →
      value ≠ Val.vnone →
      resolveEdge edges c st = Except.ok ff)
    ∧ resolveEdge (fun _ => some (Edge.comp "score" ">=" (Val.int 80) (some "T") (some "F")))
        "c" [("score", Val.int 80)] = Except.ok (some "T")
    ∧ resolveEdge (fun _ => some (Edge.comp "score" ">=" (Val.int 80) (some "T") (some "F")))
        "c" [("score", Val.int 79)] = Except.ok (some "F")
    ∧ resolveEdge (fun _ => some (Edge.comp "score" ">=" (Val.int 80) (some "T") (some "F")))
        "c" [] = Except.ok (some "F") := by
  refine ⟨?_, ?_, rfl, rfl, rfl⟩
  · intro edges c st field op value tt ff hop hedge hlookup
    have hval : dictGet st field = Val.vnone := by simp [dictGet, hlookup]
    rcases hop with h | h | h | h <;> subst h <;> simp [resolveEdge, hedge, hval]
  · intro edges c st field op value tt ff h1 h2 h3 h4 hedge hlookup hvalue
    have hval : dictGet st field = Val.vnone := by simp [dictGet, hlookup]
    simp [resolveEdge, hedge, hval, h1, h2, h3, h4, pyEq_vnone_left value hvalue]

/-- C2 witness: concrete absent-key resolutions under `>=` and under the
equality default with a non-None comparison value both select "F". -/
theorem comp_absent_key_amended_witness :
    resolveEdge (fun _ => some (Edge.comp "k" ">=" (Val.int 5) (some "T") (some "F")))
        "c" [] = Except.ok (some "F") ∧
    resolveEdge (fun _ => some (Edge.comp "k" "==" (Val.int 5) (some "T") (some "F")))
        "c" [] = Except.ok (some "F") :=
  ⟨comp_absent_key_amended.1 (fun _ => some (Edge.comp "k" ">=" (Val.int 5) (some "T") (some "F")))
      "c" [] "k" ">=" (Val.int 5) (some "T") (some "F") (Or.inl rfl) rfl rfl,
   comp_absent_key_amended.2.1 (fun _ => some (Edge.comp "k" "==" (Val.int 5) (some "T") (some "F")))
      "c" [] "k" "==" (Val.int 5) (some "T") (some "F")
      (by decide) (by decide) (by decide) (by decide) rfl rfl (by decide)⟩

/-- C5: running an unregistered graph identifier fails synchronously with
the GraphNotFound-style KeyError, and the run registry after the failed
call is exactly the registry before it — no run record was created or
registered. -/
theorem graph_not_found_before_registration (graphs : List (String × GraphSpec))
    (runs : List (String × RunState)) (gid : String) (init : StateMap) (rid : String)
    (h : graphs.lookup gid = none) :
    run_graph graphs runs gid init rid = (Except.error "graph not found", runs) := by
  simp [run_graph, h]

/-- C5 witness: an empty graph registry and a one-entry run registry; the
run registry is returned untouched. -/
theorem graph_not_found_before_registration_witness :
    run_graph [] [("r0", ⟨"r0", "g0", [], [], none, true, none⟩)] "g" [] "r" =
      (Except.error "graph not found",
        [("r0", ⟨"r0", "g0", [], [], none, true, none⟩)]) :=
  graph_not_found_before_registration []
    [("r0", ⟨"r0", "g0", [], [], none, true, none⟩)] "g" [] "r" rfl

/-- C8: the concrete two-node run (N1 returns dict x=1, edge N1→"N2", N2
returns dict x=2, no override, empty initial state) ends with state x=2,
finished, no error, and exactly the six log entries "running N1", N1's
log line, "N1 -> next: N2", "running N2", N2's log line, "N2 -> next:
None", in that order (two node steps taken). -/
theorem two_node_scenario :
    execute specC8 [] =
      ⟨[("x", Val.int 2)],
        ["running N1", "N1: node returned dict", "N1 -> next: N2",
         "running N2", "N2: node returned dict", "N2 -> next: None"],
        none, true, none, 2⟩ := rfl

/-- C10: a graph whose step budget is 0 or None runs exactly as if the
budget were 1000 — in particular a budget of 0 does not stop the run
before the first step. (A budget field left absent gets the pydantic
default 1000 directly.) -/
theorem zero_or_absent_budget_defaults (spec : GraphSpec) (initial : StateMap)
    (h : spec.max_steps = some 0 ∨ spec.max_steps = none) :
    execute spec initial =
      execute (GraphSpec.mk spec.nodes spec.edges spec.start_node (some 1000)) initial := by
  rcases h with h | h <;> simp [execute, effectiveMaxSteps, h]

/-- C10 witness: the concrete budget-0 graph runs exactly as with budget
1000. -/
theorem zero_or_absent_budget_defaults_witness :
    execute specZero [] =
      execute (GraphSpec.mk specZero.nodes specZero.edges specZero.start_node (some 1000)) [] :=
  zero_or_absent_budget_defaults specZero [] (Or.inl rfl)

/-- C3: for a graph with a positive budget `b`, a non-empty start node, and
an invariant set of node names containing the start such that every node
of the set is defined and branch resolution from it, on any state, yields
another node of the set (branching never reaches a terminal), the run
takes exactly `b` node steps, then appends the abort log entry as its last
log line and stops finished with no error and no current node. -/
theorem budget_exhaustion_exact (spec : GraphSpec) (initial : StateMap) (b : Int)
    (hms : spec.max_steps = some b) (hb : 0 < b) (hstart : spec.start_node ≠ "")
    (I : String → Prop) (hstartI : I spec.start_node)
    (hnodes : ∀ c, I c → ∃ fn, spec.nodes c = some fn)
    (hstep : ∀ c st fn, I c → spec.nodes c = some fn →
      ∃ nxt, resolveNext spec.edges c (call_node fn st).2 (dictUpdate st (call_node fn st).1) =
          Except.ok (some nxt) ∧ I nxt) :
    ∃ st2 L,
      execute spec initial =
        ⟨st2, L ++ ["max steps reached; aborting"], none, true, none, b.toNat⟩ := by
  obtain ⟨st2, L, hL⟩ :=
    execLoop_no_exit spec.nodes spec.edges I hnodes hstep
      (effectiveMaxSteps spec.max_steps).toNat spec.start_node initial [] 0 hstartI
  refine ⟨st2, L, ?_⟩
  have heff : (effectiveMaxSteps spec.max_steps).toNat = b.toNat := by
    rw [hms]
    have : b ≠ 0 := by omega
    simp [effectiveMaxSteps, this]
  rw [execute, if_neg hstart, hL, heff]
  simp

/-- C3 witness: the one-node self-loop graph with budget 2 aborts at
exactly 2 node steps with no error. -/
theorem budget_exhaustion_exact_witness :
    ∃ st2 L,
      execute specLoop [] =
        ⟨st2, L ++ ["max steps reached; aborting"], none, true, none, (2 : Int).toNat⟩ :=
  budget_exhaustion_exact specLoop [] 2 rfl (by decide) (by decide)
    (fun c => c = "A") rfl
    (fun c hc => by subst hc; exact ⟨loopFn, rfl⟩)
    (fun c st fn hc hfn => by
      subst hc
      simp only [specLoop, if_pos rfl] at hfn
      injection hfn with hfn
      subst hfn
      exact ⟨"A", rfl, rfl⟩)

/-- C4: a loop step whose current node name is not a key of the node table
ends that run at once: finished true, error set to the NodeNotFound-kind
message, and no log entry after the "running X" line; and for every
registered graph, `run_graph` returns normally (nothing propagates to the
caller) and only appends that run's own record to the run registry,
leaving every other run's entry unchanged. -/
theorem node_not_found_fatal_local :
    (∀ (nodes : String → Option NodeFn) (edges : String → Option Edge)
        (fuel : Nat) (c : String) (st : StateMap) (logs : List String) (visited : Nat),
      nodes c = none →
      execLoop nodes edges (fuel + 1) (some c) st logs visited =
        ⟨st, logs ++ ["running " ++ c], some c, true,
          some "TypeError: NoneType object is not callable", visited + 1⟩)
    ∧ (∀ (graphs : List (String × GraphSpec)) (runs : List (String × RunState))
        (gid : String) (init : StateMap) (rid : String) (spec : GraphSpec),
      graphs.lookup gid = some spec →
      run_graph graphs runs gid init rid =
        (Except.ok rid, runs ++ [(rid, mkRunRecord rid gid (execute spec init))])) := by
  constructor
  · intro nodes edges fuel c st logs visited h
    simp [execLoop, h]
  · intro graphs runs gid init rid spec h
    simp [run_graph, h]

/-- C4 witness: the concrete missing-node step, and a registry with one
prior run that survives a run of the missing-node graph untouched. -/
theorem node_not_found_fatal_local_witness :
    execLoop (fun _ => none) (fun _ => none) 1 (some "A") [] [] 0 =
      ⟨[], ["running A"], some "A", true,
        some "TypeError: NoneType object is not callable", 1⟩ ∧
    run_graph [("g", specMissing)] [("r0", ⟨"r0", "g0", [], [], none, true, none⟩)]
        "g" [] "r" =
      (Except.ok "r",
        [("r0", ⟨"r0", "g0", [], [], none, true, none⟩)] ++
          [("r", mkRunRecord "r" "g" (execute specMissing []))]) :=
  ⟨node_not_found_fatal_local.1 (fun _ => none) (fun _ => none) 0 "A" [] [] 0 rfl,
   node_not_found_fatal_local.2 [("g", specMissing)]
     [("r0", ⟨"r0", "g0", [], [], none, true, none⟩)] "g" [] "r" specMissing rfl⟩

/-- C6: a predicate branch whose predicate raises resolves to the false
target with no error: the resolver returns normally (the exception is not
propagated), and a loop step through such a branch records no error and
simply continues at the false target with the ordinary log lines. -/
theorem predicate_failure_false_target :
    (∀ (edges : String → Option Edge) (c : String)
        (cond : StateMap → Except Unit Val) (tt ff : Option String) (st : StateMap),
      edges c = some (Edge.pred cond tt ff) → cond st = Except.error () →
      resolveEdge edges c st = Except.ok ff)
    ∧ (∀ (nodes : String → Option NodeFn) (edges : String → Option Edge)
        (fuel : Nat) (c : String) (st : StateMap) (logs : List String) (visited : Nat)
        (fn : NodeFn) (d : StateMap) (cond : StateMap → Except Unit Val)
        (tt ff : Option String),
      nodes c = some fn → fn st = NodeReturn.dict d →
      edges c = some (Edge.pred cond tt ff) →
      cond (dictUpdate st d) = Except.error () →
      execLoop nodes edges (fuel + 1) (some c) st logs visited =
        execLoop nodes edges fuel ff (dictUpdate st d)
          (logs ++ ["running " ++ c, c ++ ": node returned dict",
            c ++ " -> next: " ++ optRepr ff]) (visited + 1)) := by
  constructor
  · intro edges c cond tt ff st hedge hcond
    simp [resolveEdge, hedge, hcond]
  · intro nodes edges fuel c st logs visited fn d cond tt ff hn hfn hedge hcond
    simp [execLoop, hn, call_node, hfn, resolveNext, resolveEdge, hedge, hcond,
      nodeLogEntry]
    rw [String.append_assoc]
    rfl

/-- C6 witness: an always-raising predicate resolves to "F", and a loop
step through it hands control to "F" with no error recorded. -/
theorem predicate_failure_false_target_witness :
    resolveEdge predEdges "c" [] = Except.ok (some "F") ∧
    execLoop (fun _ => some n1fn) predEdges 1 (some "c") [] [] 0 =
      execLoop (fun _ => some n1fn) predEdges 0 (some "F")
        (dictUpdate [] [("x", Val.int 1)])
        ([] ++ ["running c", "c: node returned dict", "c -> next: F"]) 1 :=
  ⟨predicate_failure_false_target.1 predEdges "c" failPred (some "T") (some "F") [] rfl rfl,
   predicate_failure_false_target.2 (fun _ => some n1fn) predEdges 0 "c" [] [] 0
     n1fn [("x", Val.int 1)] failPred (some "T") (some "F") rfl rfl rfl rfl⟩

/-- A node returning a value that is neither a NodeResult nor a dict. -/
def otherFn : NodeFn := fun _ => NodeReturn.other

/-- C7 counterexample: for a node returning a malformed value while the
current state is `{"a": 1}`, the synthetic Result Record carries the whole
current state as its state update — which is not empty, contrary to the
claim (its log and absent override are as claimed). -/
theorem malformed_result_cex :
    (call_node otherFn [("a", Val.int 1)]).2 =
      ⟨[("a", Val.int 1)], some "node returned unexpected type; no change", none⟩ ∧
    ([("a", Val.int 1)] : StateMap) ≠ [] :=
  ⟨rfl, by decide⟩

/-- C7 amended: for a node returning a value that is neither a Result
Record nor a mapping, the Invocation Adapter produces a synthetic Result
Record whose state update is the current state itself (not empty), with
the no-change log message and no next-node override; since a dict has no
duplicate keys, merging that update back into the state changes nothing;
and the run does not fail: the loop records no error for the step and
continues at the node named by the edge table. -/
theorem malformed_result_amended :
    (∀ (fn : NodeFn) (st : StateMap), fn st = NodeReturn.other →
      call_node fn st =
        (st, ⟨st, some "node returned unexpected type; no change", none⟩))
    ∧ (∀ st : StateMap, (st.map Prod.fst).Nodup → dictUpdate st st = st)
    ∧ (∀ (nodes : String → Option NodeFn) (edges : String → Option Edge)
        (fuel : Nat) (c : String) (st : StateMap) (logs : List String) (visited : Nat)
        (fn : NodeFn) (nxt : String),
      nodes c = some fn → fn st = NodeReturn.other →
      edges c = some (Edge.literal nxt) →
      execLoop nodes edges (fuel + 1) (some c) st logs visited =
        execLoop nodes edges fuel (some nxt) (dictUpdate st st)
          (logs ++ ["running " ++ c, c ++ ": node returned unexpected type; no change",
            c ++ " -> next: " ++ nxt]) (visited + 1)) := by
  refine ⟨?_, ?_, ?_⟩
  · intro fn st hfn
    simp [call_node, hfn]
  · exact dictUpdate_self
  · intro nodes edges fuel c st logs visited fn nxt hn hfn hedge
    simp [execLoop, hn, call_node, hfn, resolveNext, resolveEdge, hedge,
      nodeLogEntry, optRepr]
    rw [String.append_assoc]
    rfl

/-- C7 witness: the concrete malformed node on state a=1: the synthetic
record, the no-op merge, and the loop step that continues at "B". -/
theorem malformed_result_amended_witness :
    call_node otherFn [("a", Val.int 1)] =
      ([("a", Val.int 1)],
        ⟨[("a", Val.int 1)], some "node returned unexpected type; no change", none⟩) ∧
    dictUpdate [("a", Val.int 1)] [("a", Val.int 1)] = [("a", Val.int 1)] ∧
    execLoop (fun _ => some otherFn) (fun _ => some (Edge.literal "B")) 1 (some "c")
        [("a", Val.int 1)] [] 0 =
      execLoop (fun _ => some otherFn) (fun _ => some (Edge.literal "B")) 0 (some "B")
        (dictUpdate [("a", Val.int 1)] [("a", Val.int 1)])
        ([] ++ ["running c", "c: node returned unexpected type; no change",
          "c -> next: " ++ "B"]) 1 :=
  ⟨malformed_result_amended.1 otherFn [("a", Val.int 1)] rfl,
   malformed_result_amended.2.1 [("a", Val.int 1)] (by simp),
   malformed_result_amended.2.2 (fun _ => some otherFn) (fun _ => some (Edge.literal "B"))
     0 "c" [("a", Val.int 1)] [] 0 otherFn "B" rfl rfl rfl⟩

/-- C9 counterexample: the run of the graph whose start node "A" is absent
from the node table ends with `finished = true` but with `current_node`
still set to "A" (the exception path of `_runner` never clears it), so
finished does not imply an absent current node. -/
theorem finished_current_node_cex :
    (mkRunRecord "r" "g" (execute specMissing [])).finished = true ∧
    (mkRunRecord "r" "g" (execute specMissing [])).current_node = some "A" ∧
    (some "A" : Option String) ≠ none :=
  ⟨rfl, rfl, by decide⟩

/-- C9 amended: every run finishes with `finished = true`, and whenever it
finishes without an error (normal termination or budget exhaustion),
`current_node` is none; when `error` is set, `current_node` may instead
retain the node that was running when the failure occurred. -/
theorem finished_error_free_clears_current (spec : GraphSpec) (initial : StateMap) :
    (execute spec initial).finished = true ∧
    ((execute spec initial).error = none → (execute spec initial).current_node = none) := by
  by_cases hstart : spec.start_node = ""
  · rw [execute, if_pos hstart]
    exact ⟨rfl, fun h => by cases h⟩
  · rw [execute, if_neg hstart]
    exact execLoop_finished_current spec.nodes spec.edges _ _ initial [] 0

/-- C9 witness: the two-node scenario run finishes error-free and its
current node is cleared. -/
theorem finished_error_free_clears_current_witness :
    (execute specC8 []).finished = true ∧ (execute specC8 []).current_node = none :=
  ⟨(finished_error_free_clears_current specC8 []).1,
   (finished_error_free_clears_current specC8 []).2 rfl⟩

end Engine
